import Mathlib

/-!
Shallow embedding of volt's rebuild/build engine
(src/cmd/rebuild.go and src/cmd/builder/symlink.go).

Filesystem and git I/O outcomes are modelled as environment records: each
fallible external call is represented by an `Option Err` field giving the
error it returns (none = success).  Channel sends are modelled as lists of
result values; the arrival order at a receive loop is a parameter
(constrained to a permutation of the sent values where a claim needs it).
-/

namespace Volt

/-- Errors are plain message strings, as in the Go code. -/
abbrev Err := String

/-! ### encodeReposPath (rebuild.go, strings.NewReplacer("_", "__", "/", "_")) -/

/-- Embedding of rebuildCmd.encodeReposPath: a single left-to-right pass
replacing each underscore by two underscores and each slash by one
underscore (Go strings.Replacer semantics for single-character patterns). -/
def encodeReposPath : List Char → List Char
  | [] => []
  | c :: rest =>
    if c = '_' then '_' :: '_' :: encodeReposPath rest
    else if c = '/' then '_' :: encodeReposPath rest
    else c :: encodeReposPath rest

/-- String wrapper for encodeReposPath. -/
def encodeReposPathStr (s : String) : String :=
  String.mk (encodeReposPath s.data)

/-- A repository path is well-formed for the escaping scheme when no slash
is adjacent to another slash or to an underscore (adjacent underscores are
allowed).  Real volt paths are host/org/name identifiers; the scheme is
ambiguous outside this domain. -/
def okReposPath : List Char → Bool
  | [] => true
  | [_] => true
  | a :: b :: rest =>
    decide (¬(a = '/' ∧ b = '/')) && decide (¬(a = '_' ∧ b = '/'))
      && decide (¬(a = '/' ∧ b = '_')) && okReposPath (b :: rest)

/-- Greedy decoder for the escaping: a pair of underscores decodes to an
underscore, a lone underscore to a slash, anything else to itself. -/
def decodeReposPath : List Char → List Char
  | [] => []
  | [a] => if a = '_' then ['/'] else [a]
  | a :: b :: rest =>
    if a = '_' then
      if b = '_' then '_' :: decodeReposPath rest
      else '/' :: decodeReposPath (b :: rest)
    else a :: decodeReposPath (b :: rest)

/-! ### Magic comment and RC-file installation (rebuild.go) -/

/-- The fixed marker line volt writes at the top of every generated rc file. -/
def magicComment : String :=
  "\" NOTE: this file was generated by volt. please modify original file.\n"

/-- Embedding of rebuildCmd.shouldHaveMagicComment: read min(len file,
len marker) bytes from the file; error when fewer than the marker length
could be read or when the bytes differ from the marker. -/
def shouldHaveMagicComment (dstName : String) (content : List Char) : Option Err :=
  if min content.length magicComment.data.length < magicComment.data.length then
    some ("'" ++ dstName ++ "' does not have magic comment")
  else if content.take magicComment.data.length ≠ magicComment.data then
    some ("'" ++ dstName ++ "' does not have magic comment")
  else
    none

/-- State of one rc-file destination: its content when it exists, and
whether an os.Remove call on it would fail. -/
structure RCFileState where
  dstContent : Option (List Char)
  removeFails : Bool
deriving DecidableEq, Repr

/-- Embedding of the tail of rebuildCmd.installRCFile after the guard:
remove the destination (checking it is gone), then either stop silently
when the profile source is absent or write marker ++ source bytes
(rebuildCmd.copyFileWithMagicComment). -/
def installRCFileWrite (srcContent : Option (List Char)) (dstName : String)
    (s : RCFileState) : RCFileState × Option Err :=
  if s.removeFails && s.dstContent.isSome then
    (s, some ("failed to remove " ++ dstName))
  else
    match srcContent with
    | none => ({ dstContent := none, removeFails := s.removeFails }, none)
    | some src =>
      ({ dstContent := some (magicComment.data ++ src), removeFails := s.removeFails }, none)

/-- Embedding of rebuildCmd.installRCFile: when the destination exists it
must carry the magic comment, otherwise the call errors with the state
untouched; then the destination is removed and rewritten from the
profile-specific source (or left absent when the source is absent). -/
def installRCFile (srcContent : Option (List Char)) (dstName : String)
    (s : RCFileState) : RCFileState × Option Err :=
  match s.dstContent with
  | some content =>
    match shouldHaveMagicComment dstName content with
    | some e => (s, some e)
    | none => installRCFileWrite srcContent dstName s
  | none => installRCFileWrite srcContent dstName s

/-! ### Repositories and per-repository workers (rebuild.go) -/

/-- Repository type field of lockjson.Repos: git, static, or some other
unrecognized string. -/
inductive ReposType where
  | git : ReposType
  | static : ReposType
  | other : String → ReposType
deriving DecidableEq, Repr

/-- The lockjson.Repos fields this engine reads. -/
structure Repos where
  type : ReposType
  path : String
  version : String
deriving DecidableEq, Repr

/-- The copyReposResult message a rebuild worker sends on the done channel
(error plus the repository it concerns, identified by its path). -/
structure CopyReposResult where
  err : Option Err
  path : String
deriving DecidableEq, Repr

/-- Environment outcomes for one file entry of a git tree walk: the error
(if any) returned by Mode.ToOSFileMode, file.Contents, os.MkdirAll and
ioutil.WriteFile respectively. -/
structure GitFile where
  name : String
  modeErr : Option Err
  contentsErr : Option Err
  mkdirErr : Option Err
  writeErr : Option Err
deriving DecidableEq, Repr

/-- Environment outcomes for one copyGitRepos run: errors of git.PlainOpen,
r.CommitObject, r.TreeObject, and the walked tree entries. -/
structure GitRepoEnv where
  openErr : Option Err
  commitErr : Option Err
  treeErr : Option Err
  files : List GitFile
deriving Repr

/-- Embedding of the ForEach callback body in rebuildCmd.copyGitRepos: a
mode-conversion or content-read failure is returned (aborting the walk);
the results of os.MkdirAll and ioutil.WriteFile are discarded. -/
def copyGitFileStep (f : GitFile) : Option Err :=
  match f.modeErr with
  | some e => some ("failed to convert file mode: " ++ e)
  | none =>
    match f.contentsErr with
    | some e => some ("failed get file contents: " ++ e)
    | none => none

/-- Embedding of tree.Files().ForEach: visit entries in order, stopping at
the first callback error. -/
def treeFilesForEach : List GitFile → Option Err
  | [] => none
  | f :: rest =>
    match copyGitFileStep f with
    | some e => some e
    | none => treeFilesForEach rest

/-- Embedding of rebuildCmd.copyGitRepos as the list of messages it sends
on the done channel (one branch per return path of the Go function). -/
def copyGitRepos (repos : Repos) (env : GitRepoEnv) : List CopyReposResult :=
  match env.openErr with
  | some e => [⟨some ("failed to open repository: " ++ e), repos.path⟩]
  | none =>
    match env.commitErr with
    | some e => [⟨some ("failed to get HEAD commit object: " ++ e), repos.path⟩]
    | none =>
      match env.treeErr with
      | some e => [⟨some ("failed to get tree " ++ repos.version ++ ": " ++ e), repos.path⟩]
      | none =>
        match treeFilesForEach env.files with
        | some e => [⟨some e, repos.path⟩]
        | none => [⟨none, repos.path⟩]

/-- The single result of a copyGitRepos run (the function sends exactly
one; proved below). -/
def copyGitReposResult (repos : Repos) (env : GitRepoEnv) : CopyReposResult :=
  (copyGitRepos repos env).headD ⟨none, repos.path⟩

/-- Embedding of rebuildCmd.copyStaticRepos as the list of messages it
sends on the done channel; the environment gives copyutil.CopyDir's error. -/
def copyStaticRepos (repos : Repos) (copyDirErr : Option Err) : List CopyReposResult :=
  match copyDirErr with
  | some e => [⟨some ("failed to copy static directory: " ++ e), repos.path⟩]
  | none => [⟨none, repos.path⟩]

/-- The single result of a copyStaticRepos run. -/
def copyStaticReposResult (repos : Repos) (copyDirErr : Option Err) : CopyReposResult :=
  (copyStaticRepos repos copyDirErr).headD ⟨none, repos.path⟩

/-! ### doRebuild orchestration (rebuild.go) -/

/-- Embedding of the copy-result receive loop of rebuildCmd.doRebuild
(lines 121-126) applied to the arrival order of results: returns how many
results were received and the error the loop returns (none when the loop
ran to completion without seeing an error). -/
def drainCopyResults : List CopyReposResult → Nat × Option Err
  | [] => (0, none)
  | r :: rest =>
    match r.err with
    | some e => (1, some ("failed to copy repository '" ++ r.path ++ "': " ++ e))
    | none => ((drainCopyResults rest).1 + 1, (drainCopyResults rest).2)

/-- Environment for one doRebuild run: outcomes of every external call it
makes, the repository list, and the arrival order of worker results. -/
structure RebuildEnv where
  startDir : String
  lockErr : Option Err
  profileErr : Option Err
  /-- files found by pathutil.LookUpVimrcOrGvimrc, with their contents. -/
  preflightFiles : List (String × List Char)
  vimrcSrc : Option (List Char)
  gvimrcSrc : Option (List Char)
  vimrcState : RCFileState
  gvimrcState : RCFileState
  startDirExists : Bool
  renameErr : Option Err
  mkdirErr : Option Err
  /-- outcome of the background os.RemoveAll of the renamed-away directory. -/
  removeAllErr : Option Err
  reposList : List Repos
  /-- per-path git worker environments. -/
  gitEnvOf : String → GitRepoEnv
  /-- per-path copyutil.CopyDir outcomes for static workers. -/
  staticErrOf : String → Option Err
  /-- order in which worker results arrive on the copyDone channel. -/
  arrivals : List CopyReposResult

/-- What one doRebuild run did and returned. -/
structure RebuildTrace where
  retErr : Option Err
  /-- the rename to a .old sibling succeeded and background removal began. -/
  removeStarted : Bool
  /-- os.MkdirAll recreated the start directory. -/
  mkdirDone : Bool
  /-- the worker fan-out loop ran. -/
  workersSpawned : Bool
  /-- results received from the copyDone channel. -/
  resultsReceived : Nat
deriving DecidableEq, Repr

/-- Trace of a doRebuild run that aborted before the worker fan-out. -/
def abortTrace (e : Err) (removeStarted : Bool) : RebuildTrace :=
  ⟨some e, removeStarted, false, false, 0⟩

/-- The one message the doRebuild fan-out loop produces for a repository:
git and static repositories get their worker result, an unrecognized type
gets an inline invalid-repository-type error result on the same channel. -/
def dispatchRepos (env : RebuildEnv) (r : Repos) : CopyReposResult :=
  match r.type with
  | ReposType.git => copyGitReposResult r (env.gitEnvOf r.path)
  | ReposType.static => copyStaticReposResult r (env.staticErrOf r.path)
  | ReposType.other s => ⟨some ("invalid repository type: " ++ s), r.path⟩

/-- Embedding of the preflight loop over LookUpVimrcOrGvimrc in doRebuild. -/
def preflightCheck : List (String × List Char) → Option Err
  | [] => none
  | (name, content) :: rest =>
    match shouldHaveMagicComment name content with
    | some e => some ("already exists user vimrc or gvimrc: " ++ e)
    | none => preflightCheck rest

/-- Fan-out tail of doRebuild: recreate the start directory, spawn one
result per repository, join the background removal, drain copy results
(returning the first copy error), then report the removal error only when
every copy result was error-free. -/
def doRebuildSpawn (env : RebuildEnv) (removeStarted : Bool) : RebuildTrace :=
  match env.mkdirErr with
  | some e => abortTrace e removeStarted
  | none =>
    { retErr :=
        match (drainCopyResults env.arrivals).2 with
        | some e => some e
        | none =>
          match (if removeStarted then env.removeAllErr else none) with
          | some e => some ("failed to remove '" ++ env.startDir ++ "': " ++ e)
          | none => none
      removeStarted := removeStarted
      mkdirDone := true
      workersSpawned := true
      resultsReceived := (drainCopyResults env.arrivals).1 }

/-- Start-directory retirement step of doRebuild: when the directory
exists, rename it aside (a failure aborts with nothing else attempted) and
start the background removal; then recreate the directory and fan out. -/
def doRebuildFromRemove (env : RebuildEnv) : RebuildTrace :=
  if env.startDirExists then
    match env.renameErr with
    | some e => abortTrace e false
    | none => doRebuildSpawn env true
  else doRebuildSpawn env false

/-- Embedding of rebuildCmd.doRebuild: read lock.json, resolve the active
profile, run the rc preflight guard, install vimrc and gvimrc, then retire
the start directory and run the fan-out (doRebuildFromRemove). -/
def doRebuild (env : RebuildEnv) : RebuildTrace :=
  match env.lockErr with
  | some e => abortTrace ("could not read lock.json: " ++ e) false
  | none =>
    match env.profileErr with
    | some e => abortTrace e false
    | none =>
      match preflightCheck env.preflightFiles with
      | some e => abortTrace e false
      | none =>
        match (installRCFile env.vimrcSrc "vimrc" env.vimrcState).2 with
        | some e => abortTrace e false
        | none =>
          match (installRCFile env.gvimrcSrc "gvimrc" env.gvimrcState).2 with
          | some e => abortTrace e false
          | none => doRebuildFromRemove env

/-! ### symlinkBuilder (cmd/builder/symlink.go) -/

/-- The actionReposResult message a symlink-build worker sends: error
sends carry no repository, the final success send carries the repository. -/
structure ActionReposResult where
  err : Option Err
  repos : Option Repos
deriving DecidableEq, Repr

/-- Environment outcomes for one symlinkBuilder.installRepos run: errors
of git.PlainOpen and r.Config, whether the repository is bare, the result
error received from copyBuilder.updateBareGitRepos on the updateDone
channel, and the errors of builder.symlink and builder.helptags. -/
structure SymlinkRepoEnv where
  openErr : Option Err
  configErr : Option Err
  isBare : Bool
  bareUpdateErr : Option Err
  symlinkErr : Option Err
  helptagsErr : Option Err
deriving Repr

/-- The not-copied tail of symlinkBuilder.installRepos: make the symlink,
regenerate help tags, then send the success result. -/
def installReposLink (repos : Repos) (env : SymlinkRepoEnv) : List ActionReposResult :=
  match env.symlinkErr with
  | some e => [⟨some e, none⟩]
  | none =>
    match env.helptagsErr with
    | some e => [⟨some e, none⟩]
    | none => [⟨none, some repos⟩]

/-- Embedding of symlinkBuilder.installRepos as the list of messages it
sends on the done channel (one branch per return path): a git repository
is opened and, when bare, extracted via updateBareGitRepos; otherwise (and
for non-git types) a symlink is created and help tags regenerated. -/
def installRepos (repos : Repos) (env : SymlinkRepoEnv) : List ActionReposResult :=
  match repos.type with
  | ReposType.git =>
    match env.openErr with
    | some e => [⟨some ("repository " ++ repos.path ++ ": " ++ e), none⟩]
    | none =>
      match env.configErr with
      | some e => [⟨some ("failed to get repository config of " ++ repos.path ++ ": " ++ e), none⟩]
      | none =>
        if env.isBare then
          match env.bareUpdateErr with
          | some e => [⟨some e, none⟩]
          | none => [⟨none, some repos⟩]
        else installReposLink repos env
  | _ => installReposLink repos env

/-- Embedding of the result receive loop of symlinkBuilder.Build (lines
77-85): the outer variable err (nil by the time the loop starts) is what
the loop returns when a received result carries an error.  Returns how
many results were received and, when the loop returned early, the value of
the outer err it returned (wrapped in some). -/
def buildDrainLoop (outerErr : Option Err) : List ActionReposResult → Nat × Option (Option Err)
  | [] => (0, none)
  | r :: rest =>
    match r.err with
    | some _ => (1, some outerErr)
    | none => ((buildDrainLoop outerErr rest).1 + 1, (buildDrainLoop outerErr rest).2)

/-- Environment for one symlinkBuilder.Build run. -/
structure BuildEnv where
  vimExeErr : Option Err
  lockErr : Option Err
  profileErr : Option Err
  installVimrcErr : Option Err
  /-- pathutil.Exists(optDir) after os.MkdirAll. -/
  optDirCreated : Bool
  vimExeErr2 : Option Err
  reposList : List Repos
  /-- order in which worker results arrive on the done channel. -/
  arrivals : List ActionReposResult
  plugconfErr : Option Err
  writeBundledErr : Option Err
  buildInfoWriteErr : Option Err

/-- Embedding of symlinkBuilder.Build (the build-info record assembly and
logging are elided; only control flow and the returned error are
modelled).  Note the receive loop returns the stale outer err variable,
which is nil once the loop is reached, not the failing result's own error. -/
def symlinkBuild (env : BuildEnv) : Option Err :=
  match env.vimExeErr with
  | some e => some e
  | none =>
    match env.lockErr with
    | some e => some ("could not read lock.json: " ++ e)
    | none =>
      match env.profileErr with
      | some e => some e
      | none =>
        match env.installVimrcErr with
        | some e => some e
        | none =>
          if !env.optDirCreated then some "could not create opt directory"
          else
            match env.vimExeErr2 with
            | some e => some e
            | none =>
              match (buildDrainLoop none env.arrivals).2 with
              | some staleErr => staleErr
              | none =>
                match env.plugconfErr with
                | some e => some e
                | none =>
                  match env.writeBundledErr with
                  | some e => some e
                  | none => env.buildInfoWriteErr

/-! ### Concrete sample environments (used to instantiate theorems) -/

/-- A trivial git worker environment where every call succeeds and the
tree is empty. -/
def okGitEnv : GitRepoEnv := ⟨none, none, none, []⟩

/-- A rebuild environment whose pre-rename stages all succeed and whose
start-directory rename fails. -/
def renameFailEnv : RebuildEnv where
  startDir := "start"
  lockErr := none
  profileErr := none
  preflightFiles := []
  vimrcSrc := none
  gvimrcSrc := none
  vimrcState := ⟨none, false⟩
  gvimrcState := ⟨none, false⟩
  startDirExists := true
  renameErr := some "permission denied"
  mkdirErr := none
  removeAllErr := none
  reposList := []
  gitEnvOf := fun _ => okGitEnv
  staticErrOf := fun _ => none
  arrivals := []

/-- A rebuild environment where the retirement succeeds, the background
removal fails, and the single copy worker fails. -/
def copyFailEnv : RebuildEnv where
  startDir := "start"
  lockErr := none
  profileErr := none
  preflightFiles := []
  vimrcSrc := none
  gvimrcSrc := none
  vimrcState := ⟨none, false⟩
  gvimrcState := ⟨none, false⟩
  startDirExists := true
  renameErr := none
  mkdirErr := none
  removeAllErr := some "directory busy"
  reposList := [⟨ReposType.git, "github.com/tyru/caw.vim", "deadbeef"⟩]
  gitEnvOf := fun _ => ⟨some "repository does not exist", none, none, []⟩
  staticErrOf := fun _ => none
  arrivals := [⟨some "failed to open repository: repository does not exist", "github.com/tyru/caw.vim"⟩]

/-- A rebuild environment holding one repository of an unrecognized type. -/
def invalidTypeEnv : RebuildEnv where
  startDir := "start"
  lockErr := none
  profileErr := none
  preflightFiles := []
  vimrcSrc := none
  gvimrcSrc := none
  vimrcState := ⟨none, false⟩
  gvimrcState := ⟨none, false⟩
  startDirExists := false
  renameErr := none
  mkdirErr := none
  removeAllErr := none
  reposList := [⟨ReposType.other "unknown", "p/q", "v1"⟩]
  gitEnvOf := fun _ => okGitEnv
  staticErrOf := fun _ => none
  arrivals := [⟨some "invalid repository type: unknown", "p/q"⟩]

/-- A symlink-build environment whose pre-loop stages all succeed and
whose single worker result carries a symlink-creation error. -/
def symlinkFailEnv : BuildEnv where
  vimExeErr := none
  lockErr := none
  profileErr := none
  installVimrcErr := none
  optDirCreated := true
  vimExeErr2 := none
  reposList := [⟨ReposType.git, "github.com/tyru/caw.vim", "deadbeef"⟩]
  arrivals := [⟨some "failed to create symlink", none⟩]
  plugconfErr := none
  writeBundledErr := none
  buildInfoWriteErr := none

/-! ### Helper lemmas -/

/-- The ForEach callback succeeds exactly when neither the mode conversion
nor the content read of the entry errs. -/
theorem copyGitFileStep_eq_none_iff (f : GitFile) :
    copyGitFileStep f = none ↔ f.modeErr = none ∧ f.contentsErr = none := by
  unfold copyGitFileStep
  cases f.modeErr <;> cases f.contentsErr <;> simp

/-- A tree walk containing an entry with a mode or content error fails. -/
theorem treeFilesForEach_err_of_mem (l : List GitFile) (f : GitFile) (hf : f ∈ l)
    (h : f.modeErr ≠ none ∨ f.contentsErr ≠ none) : treeFilesForEach l ≠ none := by
  induction l with
  | nil => cases hf
  | cons g rest ih =>
    unfold treeFilesForEach
    cases hg : copyGitFileStep g with
    | some e => simp
    | none =>
      rcases List.mem_cons.mp hf with rfl | hf2
      · rcases (copyGitFileStep_eq_none_iff f).mp hg with ⟨h1, h2⟩
        rcases h with h3 | h3
        · exact absurd h1 h3
        · exact absurd h2 h3
      · exact ih hf2

/-- A tree walk over entries whose mode conversions and content reads all
succeed completes without error. -/
theorem treeFilesForEach_eq_none (l : List GitFile)
    (h : ∀ f ∈ l, f.modeErr = none ∧ f.contentsErr = none) :
    treeFilesForEach l = none := by
  induction l with
  | nil => rfl
  | cons g rest ih =>
    unfold treeFilesForEach
    rw [(copyGitFileStep_eq_none_iff g).mpr (h g (by simp))]
    exact ih fun f hf => h f (by simp [hf])

/-- The copy-result receive loop completes, consuming every result, when
no result carries an error. -/
theorem drainCopyResults_all_ok (l : List CopyReposResult)
    (h : ∀ r ∈ l, r.err = none) : drainCopyResults l = (l.length, none) := by
  induction l with
  | nil => rfl
  | cons r rest ih =>
    unfold drainCopyResults
    rw [h r (by simp), ih fun x hx => h x (by simp [hx])]
    rfl

/-- The copy-result receive loop fails when some received result carries
an error. -/
theorem drainCopyResults_err_of_mem (l : List CopyReposResult)
    (h : ∃ r ∈ l, r.err ≠ none) : (drainCopyResults l).2 ≠ none := by
  induction l with
  | nil => simp at h
  | cons x rest ih =>
    unfold drainCopyResults
    cases hx : x.err with
    | some e => simp
    | none =>
      obtain ⟨r, hmem, hr⟩ := h
      rcases List.mem_cons.mp hmem with rfl | hmem2
      · exact absurd hx hr
      · simpa using ih ⟨r, hmem2, hr⟩

/-- The copy-result receive loop returns as soon as it receives a result
carrying an error, having consumed only the results before it and itself. -/
theorem drainCopyResults_early (pre : List CopyReposResult) (r : CopyReposResult)
    (post : List CopyReposResult) (hpre : ∀ x ∈ pre, x.err = none) (hr : r.err ≠ none) :
    (drainCopyResults (pre ++ r :: post)).1 = pre.length + 1 := by
  induction pre with
  | nil =>
    obtain ⟨e, he⟩ := Option.ne_none_iff_exists'.mp hr
    simp [drainCopyResults, he]
  | cons x xs ih =>
    have hx : x.err = none := hpre x (by simp)
    have := ih fun y hy => hpre y (by simp [hy])
    simp only [List.cons_append]
    unfold drainCopyResults
    rw [hx]
    simp [this]

/-- The symlink-build receive loop completes, consuming every result, when
no result carries an error. -/
theorem buildDrainLoop_all_ok (o : Option Err) (l : List ActionReposResult)
    (h : ∀ r ∈ l, r.err = none) : buildDrainLoop o l = (l.length, none) := by
  induction l with
  | nil => rfl
  | cons r rest ih =>
    unfold buildDrainLoop
    rw [h r (by simp), ih fun x hx => h x (by simp [hx])]
    rfl

/-- The symlink-build receive loop returns as soon as it receives a result
carrying an error. -/
theorem buildDrainLoop_early (o : Option Err) (pre : List ActionReposResult)
    (r : ActionReposResult) (post : List ActionReposResult)
    (hpre : ∀ x ∈ pre, x.err = none) (hr : r.err ≠ none) :
    (buildDrainLoop o (pre ++ r :: post)).1 = pre.length + 1 := by
  induction pre with
  | nil =>
    obtain ⟨e, he⟩ := Option.ne_none_iff_exists'.mp hr
    simp [buildDrainLoop, he]
  | cons x xs ih =>
    have hx : x.err = none := hpre x (by simp)
    have := ih fun y hy => hpre y (by simp [hy])
    simp only [List.cons_append]
    unfold buildDrainLoop
    rw [hx]
    simp [this]

/-- A doRebuild run whose arrival list contains an erroring result returns
a non-nil error, whatever the other environment outcomes are. -/
theorem doRebuild_fails_of_arrival_err (env : RebuildEnv)
    (harr : ∃ x ∈ env.arrivals, x.err ≠ none) : (doRebuild env).retErr ≠ none := by
  have hdrain := drainCopyResults_err_of_mem env.arrivals harr
  obtain ⟨e, he⟩ := Option.ne_none_iff_exists'.mp hdrain
  unfold doRebuild doRebuildFromRemove doRebuildSpawn abortTrace
  rw [he]
  repeat' split
  all_goals simp_all

/-! ### Claim theorems -/

/-- Claim C9: every per-repository worker (copyGitRepos, copyStaticRepos
and the link-path installRepos) sends exactly one result on its done
channel on every execution path. -/
theorem workers_send_exactly_one_result (r : Repos) (eg : GitRepoEnv)
    (es : Option Err) (el : SymlinkRepoEnv) :
    (copyGitRepos r eg).length = 1 ∧ (copyStaticRepos r es).length = 1 ∧
    (installRepos r el).length = 1 := by
  refine ⟨?_, ?_, ?_⟩
  · unfold copyGitRepos
    repeat' split
    all_goals rfl
  · unfold copyStaticRepos
    repeat' split
    all_goals rfl
  · unfold installRepos installReposLink
    repeat' split
    all_goals rfl

/-- Claim C1: in symlinkBuilder.Build an erroring worker result makes the
receive loop return the stale outer err variable, which is nil at that
point, so Build reports success to its caller even though a repository
failed and the build aborted before writing build-info. -/
theorem symlinkBuild_returns_nil_on_erroring_result :
    (∃ r ∈ symlinkFailEnv.arrivals, r.err ≠ none) ∧
    symlinkBuild symlinkFailEnv = none := by
  constructor
  · exact ⟨⟨some "failed to create symlink", none⟩, by simp [symlinkFailEnv], by simp⟩
  · rfl

/-- Claim C4 counterexample: a tree entry whose parent-directory creation
and content write both fail still yields a success result from
copyGitRepos — the errors of os.MkdirAll and ioutil.WriteFile are
discarded, refuting the claim that any single-file failure aborts the
repository's install. -/
theorem copyGitRepos_ignores_write_error :
    copyGitRepos ⟨ReposType.git, "github.com/tyru/caw.vim", "deadbeef"⟩
        ⟨none, none, none,
          [⟨"plugin/caw.vim", none, none, some "permission denied", some "disk full"⟩]⟩
      = [⟨none, "github.com/tyru/caw.vim"⟩] := by
  rfl

/-- Claim C4 (amended): a failure converting an entry's mode or reading
its content aborts the repository's install with an erroring single
result; failures of parent-directory creation or of the content write are
ignored and the walk reports success when every mode conversion and
content read succeeded. -/
theorem copyGitRepos_error_behavior (repos : Repos) (env : GitRepoEnv) :
    ((∃ f ∈ env.files, f.modeErr ≠ none ∨ f.contentsErr ≠ none) →
        (copyGitReposResult repos env).err ≠ none)
    ∧ (env.openErr = none → env.commitErr = none → env.treeErr = none →
        (∀ f ∈ env.files, f.modeErr = none ∧ f.contentsErr = none) →
        (copyGitReposResult repos env).err = none) := by
  constructor
  · intro h
    obtain ⟨f, hf, herr⟩ := h
    have hwalk := treeFilesForEach_err_of_mem env.files f hf herr
    obtain ⟨e, he⟩ := Option.ne_none_iff_exists'.mp hwalk
    unfold copyGitReposResult copyGitRepos
    rw [he]
    repeat' split
    all_goals simp_all
  · intro h1 h2 h3 h4
    have hwalk := treeFilesForEach_eq_none env.files h4
    unfold copyGitReposResult copyGitRepos
    rw [h1, h2, h3, hwalk]
    rfl

/-- Claim C4 witness. -/
theorem copyGitRepos_error_behavior_witness :
    (copyGitReposResult ⟨ReposType.git, "a/b", "v"⟩
        ⟨none, none, none, [⟨"f", some "unsupported mode", none, none, none⟩]⟩).err ≠ none :=
  (copyGitRepos_error_behavior ⟨ReposType.git, "a/b", "v"⟩
      ⟨none, none, none, [⟨"f", some "unsupported mode", none, none, none⟩]⟩).1
    ⟨⟨"f", some "unsupported mode", none, none, none⟩, by simp, by simp⟩

/-- The guard errors on any existing content that is shorter than the
marker or whose first marker-length bytes differ from it. -/
theorem shouldHaveMagicComment_some (dstName : String) (c : List Char)
    (hbad : c.length < magicComment.data.length ∨
      c.take magicComment.data.length ≠ magicComment.data) :
    shouldHaveMagicComment dstName c
      = some ("'" ++ dstName ++ "' does not have magic comment") := by
  unfold shouldHaveMagicComment
  by_cases hlen : c.length < magicComment.data.length
  · rw [if_pos (min_lt_iff.mpr (Or.inl hlen))]
  · have hge : ¬ min c.length magicComment.data.length < magicComment.data.length := by
      rw [min_lt_iff]
      omega
    rcases hbad with h | h
    · exact absurd h hlen
    · rw [if_neg hge, if_pos h]

/-- Claim C5: installing onto an existing destination whose first
marker-length bytes are not the magic comment (including a destination
shorter than the marker) returns an error and leaves the destination
state completely unchanged. -/
theorem installRCFile_guard_blocks_unmarked (src : Option (List Char)) (dstName : String)
    (s : RCFileState) (c : List Char) (hc : s.dstContent = some c)
    (hbad : c.length < magicComment.data.length ∨
      c.take magicComment.data.length ≠ magicComment.data) :
    (installRCFile src dstName s).2 ≠ none ∧ (installRCFile src dstName s).1 = s := by
  unfold installRCFile
  rw [hc]
  simp [shouldHaveMagicComment_some dstName c hbad]

/-- Claim C5 witness. -/
theorem installRCFile_guard_blocks_unmarked_witness :
    (installRCFile none "vimrc" ⟨some ['x'], false⟩).2 ≠ none ∧
    (installRCFile none "vimrc" ⟨some ['x'], false⟩).1 = ⟨some ['x'], false⟩ :=
  installRCFile_guard_blocks_unmarked none "vimrc" ⟨some ['x'], false⟩ ['x'] rfl
    (Or.inl (by decide))

/-- Claim C6: installing onto an absent destination succeeds; when the
profile source exists the destination becomes exactly the magic comment
followed by the verbatim source bytes, and when the source is absent the
call returns no error and the destination stays absent. -/
theorem installRCFile_absent_dst (dstName : String) (s : RCFileState)
    (h : s.dstContent = none) :
    (∀ src, installRCFile (some src) dstName s
        = (⟨some (magicComment.data ++ src), s.removeFails⟩, none))
    ∧ installRCFile none dstName s = (⟨none, s.removeFails⟩, none) := by
  constructor
  · intro src
    simp [installRCFile, installRCFileWrite, h]
  · simp [installRCFile, installRCFileWrite, h]

/-- Claim C6 witness. -/
theorem installRCFile_absent_dst_witness :
    installRCFile (some ['s', 'e', 't']) "vimrc" ⟨none, false⟩
      = (⟨some (magicComment.data ++ ['s', 'e', 't']), false⟩, none) :=
  (installRCFile_absent_dst "vimrc" ⟨none, false⟩ rfl).1 ['s', 'e', 't']

/-- Claim C2 counterexample: with two results arriving and the first
carrying an error, both receive loops return after receiving one result,
not two — they do not drain all N results. -/
theorem drain_loops_return_early_counterexample :
    (drainCopyResults [⟨some "boom", "a/b"⟩, ⟨none, "c/d"⟩]).1 = 1 ∧
    (buildDrainLoop none [⟨some "boom", none⟩, ⟨none, none⟩]).1 = 1 ∧
    ([⟨some "boom", "a/b"⟩, ⟨none, "c/d"⟩] : List CopyReposResult).length = 2 ∧
    ([⟨some "boom", none⟩, ⟨none, none⟩] : List ActionReposResult).length = 2 :=
  ⟨rfl, rfl, rfl, rfl⟩

/-- Claim C2 (amended): each orchestrator receive loop (doRebuild's copy
loop and symlinkBuilder.Build's result loop) receives all N results
exactly when none carries an error; when an erroring result arrives it
returns immediately after receiving it, having received only the
error-free results delivered before it plus that one. -/
theorem drain_loops_receive_counts :
    (∀ l : List CopyReposResult, (∀ r ∈ l, r.err = none) →
        (drainCopyResults l).1 = l.length)
    ∧ (∀ (o : Option Err) (l : List ActionReposResult), (∀ r ∈ l, r.err = none) →
        (buildDrainLoop o l).1 = l.length)
    ∧ (∀ (pre : List CopyReposResult) (r : CopyReposResult) post,
        (∀ x ∈ pre, x.err = none) → r.err ≠ none →
        (drainCopyResults (pre ++ r :: post)).1 = pre.length + 1)
    ∧ (∀ (o : Option Err) (pre : List ActionReposResult) (r : ActionReposResult) post,
        (∀ x ∈ pre, x.err = none) → r.err ≠ none →
        (buildDrainLoop o (pre ++ r :: post)).1 = pre.length + 1) := by
  refine ⟨?_, ?_, ?_, ?_⟩
  · intro l h
    rw [drainCopyResults_all_ok l h]
  · intro o l h
    rw [buildDrainLoop_all_ok o l h]
  · exact drainCopyResults_early
  · exact buildDrainLoop_early

/-- Claim C2 witness. -/
theorem drain_loops_receive_counts_witness :
    (drainCopyResults [⟨none, "a/b"⟩]).1 = 1 ∧
    (drainCopyResults ([⟨none, "a/b"⟩] ++ (⟨some "boom", "c/d"⟩ : CopyReposResult)
        :: [⟨none, "e/f"⟩])).1 = 2 :=
  ⟨drain_loops_receive_counts.1 [⟨none, "a/b"⟩] (by decide),
   drain_loops_receive_counts.2.2.1 [⟨none, "a/b"⟩] ⟨some "boom", "c/d"⟩ [⟨none, "e/f"⟩]
     (by decide) (by decide)⟩

/-- Claim C7: when the start directory exists and its rename to the .old
sibling fails, doRebuild returns exactly that error with no background
removal started, no directory recreation, no workers spawned and no
results received — provided the earlier rc-file stages all passed. -/
theorem doRebuild_rename_failure_aborts (env : RebuildEnv) (e : Err)
    (hl : env.lockErr = none) (hp : env.profileErr = none)
    (hpre : preflightCheck env.preflightFiles = none)
    (hv : (installRCFile env.vimrcSrc "vimrc" env.vimrcState).2 = none)
    (hg : (installRCFile env.gvimrcSrc "gvimrc" env.gvimrcState).2 = none)
    (hex : env.startDirExists = true) (hre : env.renameErr = some e) :
    doRebuild env = { retErr := some e
                      removeStarted := false
                      mkdirDone := false
                      workersSpawned := false
                      resultsReceived := 0 } := by
  unfold doRebuild doRebuildFromRemove
  rw [hl, hp, hpre, hv, hg, hex, hre]
  rfl

/-- Claim C7 witness. -/
theorem doRebuild_rename_failure_aborts_witness :
    doRebuild renameFailEnv = { retErr := some "permission denied"
                                removeStarted := false
                                mkdirDone := false
                                workersSpawned := false
                                resultsReceived := 0 } :=
  doRebuild_rename_failure_aborts renameFailEnv "permission denied"
    rfl rfl rfl rfl rfl rfl rfl

/-- Claim C8: a repository whose type is neither git nor static produces,
inline on the same copyDone channel as the worker results, a result whose
error message contains "invalid repository type", and any rebuild whose
arrival list is a permutation of the per-repository results returns a
non-nil error. -/
theorem doRebuild_invalid_type_error (env : RebuildEnv) (r : Repos) (s : String)
    (hmem : r ∈ env.reposList) (htype : r.type = ReposType.other s)
    (hperm : env.arrivals.Perm (env.reposList.map (dispatchRepos env))) :
    (⟨some ("invalid repository type: " ++ s), r.path⟩ : CopyReposResult)
        ∈ env.reposList.map (dispatchRepos env)
    ∧ (doRebuild env).retErr ≠ none := by
  have hsend : dispatchRepos env r
      = ⟨some ("invalid repository type: " ++ s), r.path⟩ := by
    unfold dispatchRepos
    rw [htype]
  have hmem2 : (⟨some ("invalid repository type: " ++ s), r.path⟩ : CopyReposResult)
      ∈ env.reposList.map (dispatchRepos env) :=
    hsend ▸ List.mem_map_of_mem (dispatchRepos env) hmem
  exact ⟨hmem2, doRebuild_fails_of_arrival_err env ⟨_, hperm.mem_iff.mpr hmem2, by simp⟩⟩

/-- Claim C8 witness. -/
theorem doRebuild_invalid_type_error_witness :
    (⟨some ("invalid repository type: " ++ "unknown"), "p/q"⟩ : CopyReposResult)
        ∈ invalidTypeEnv.reposList.map (dispatchRepos invalidTypeEnv)
    ∧ (doRebuild invalidTypeEnv).retErr ≠ none :=
  doRebuild_invalid_type_error invalidTypeEnv ⟨ReposType.other "unknown", "p/q", "v1"⟩
    "unknown" (by decide) rfl (by decide)

/-- Claim C10: once doRebuild reaches its join phase, a copy error takes
precedence — the returned error is the one derived from the first
erroring copy result whatever the background removal's outcome was — and
the background removal failure becomes the rebuild's error only when
every copy result is error-free. -/
theorem doRebuild_copy_error_precedence (env : RebuildEnv)
    (hl : env.lockErr = none) (hp : env.profileErr = none)
    (hpre : preflightCheck env.preflightFiles = none)
    (hv : (installRCFile env.vimrcSrc "vimrc" env.vimrcState).2 = none)
    (hg : (installRCFile env.gvimrcSrc "gvimrc" env.gvimrcState).2 = none)
    (hex : env.startDirExists = true) (hre : env.renameErr = none)
    (hmk : env.mkdirErr = none) :
    ((drainCopyResults env.arrivals).2 ≠ none →
        (doRebuild env).retErr = (drainCopyResults env.arrivals).2)
    ∧ ((∀ x ∈ env.arrivals, x.err = none) → ∀ re, env.removeAllErr = some re →
        (doRebuild env).retErr
          = some ("failed to remove '" ++ env.startDir ++ "': " ++ re)) := by
  have hred : doRebuild env = doRebuildSpawn env true := by
    unfold doRebuild doRebuildFromRemove
    rw [hl, hp, hpre, hv, hg, hex, hre]
    rfl
  constructor
  · intro hdr
    obtain ⟨e, he⟩ := Option.ne_none_iff_exists'.mp hdr
    rw [hred]
    unfold doRebuildSpawn
    simp [hmk, he]
  · intro hok re hre2
    rw [hred]
    unfold doRebuildSpawn
    simp [hmk, drainCopyResults_all_ok env.arrivals hok, hre2]

/-- Claim C10 witness. -/
theorem doRebuild_copy_error_precedence_witness :
    (doRebuild copyFailEnv).retErr = (drainCopyResults copyFailEnv.arrivals).2 :=
  (doRebuild_copy_error_precedence copyFailEnv rfl rfl rfl rfl rfl rfl rfl rfl).1
    (by decide)

/-- Encoding never maps a nonempty path to the empty string. -/
theorem encodeReposPath_cons_ne_nil (c : Char) (rest : List Char) :
    encodeReposPath (c :: rest) ≠ [] := by
  unfold encodeReposPath
  by_cases h1 : c = '_' <;> by_cases h2 : c = '/' <;> simp [h1, h2]

/-- Well-formedness of a path passes to its tail. -/
theorem okReposPath_tail (a : Char) (l : List Char) (h : okReposPath (a :: l) = true) :
    okReposPath l = true := by
  cases l with
  | nil => rfl
  | cons b rest =>
    unfold okReposPath at h
    simp only [Bool.and_eq_true] at h
    exact h.2

/-- In a well-formed path a slash is never followed by a slash or an
underscore. -/
theorem okReposPath_slash_head (b : Char) (l : List Char)
    (h : okReposPath ('/' :: b :: l) = true) : b ≠ '_' ∧ b ≠ '/' := by
  unfold okReposPath at h
  rw [Bool.and_eq_true, Bool.and_eq_true, Bool.and_eq_true] at h
  obtain ⟨⟨⟨h1, h2⟩, h3⟩, h4⟩ := h
  rw [decide_eq_true_eq] at h1 h3
  exact ⟨fun hb => h3 ⟨rfl, hb⟩, fun hb => h1 ⟨rfl, hb⟩⟩

/-- Equation: encoding an underscore doubles it. -/
theorem encodeReposPath_underscore (t : List Char) :
    encodeReposPath ('_' :: t) = '_' :: '_' :: encodeReposPath t := by
  rw [encodeReposPath, if_pos rfl]

/-- Equation: encoding a slash yields one underscore. -/
theorem encodeReposPath_slash (t : List Char) :
    encodeReposPath ('/' :: t) = '_' :: encodeReposPath t := by
  rw [encodeReposPath, if_neg (by decide : ¬('/' : Char) = '_'), if_pos rfl]

/-- Equation: a character other than underscore and slash encodes to
itself. -/
theorem encodeReposPath_other (c : Char) (t : List Char) (h1 : c ≠ '_') (h2 : c ≠ '/') :
    encodeReposPath (c :: t) = c :: encodeReposPath t := by
  rw [encodeReposPath, if_neg h1, if_neg h2]

/-- Equation: two leading underscores decode to one. -/
theorem decodeReposPath_two_underscores (r : List Char) :
    decodeReposPath ('_' :: '_' :: r) = '_' :: decodeReposPath r := by
  rw [decodeReposPath, if_pos rfl, if_pos rfl]

/-- Equation: an underscore followed by another character decodes to a
slash. -/
theorem decodeReposPath_underscore_other (b : Char) (r : List Char) (hb : b ≠ '_') :
    decodeReposPath ('_' :: b :: r) = '/' :: decodeReposPath (b :: r) := by
  rw [decodeReposPath, if_pos rfl, if_neg hb]

/-- Equation: a leading character other than underscore decodes to
itself (two-element-or-longer case). -/
theorem decodeReposPath_other (a b : Char) (r : List Char) (ha : a ≠ '_') :
    decodeReposPath (a :: b :: r) = a :: decodeReposPath (b :: r) := by
  rw [decodeReposPath, if_neg ha]

/-- Equation: a single character other than underscore decodes to itself. -/
theorem decodeReposPath_single (a : Char) (ha : a ≠ '_') :
    decodeReposPath [a] = [a] := by
  rw [decodeReposPath, if_neg ha]

/-- Decoding is a left inverse of encoding on well-formed paths. -/
theorem decodeReposPath_encodeReposPath (l : List Char) (h : okReposPath l = true) :
    decodeReposPath (encodeReposPath l) = l := by
  induction l with
  | nil => rfl
  | cons a t ih =>
    have ht : okReposPath t = true := okReposPath_tail a t h
    by_cases ha1 : a = '_'
    · subst ha1
      rw [encodeReposPath_underscore, decodeReposPath_two_underscores, ih ht]
    · by_cases ha2 : a = '/'
      · subst ha2
        cases t with
        | nil => rfl
        | cons b t2 =>
          obtain ⟨hb1, hb2⟩ := okReposPath_slash_head b t2 h
          rw [encodeReposPath_slash, encodeReposPath_other b t2 hb1 hb2,
            decodeReposPath_underscore_other b _ hb1,
            ← encodeReposPath_other b t2 hb1 hb2, ih ht]
      · rw [encodeReposPath_other a t ha1 ha2]
        cases hrest : encodeReposPath t with
        | nil =>
          have ht0 : t = [] := by
            cases t with
            | nil => rfl
            | cons c r => exact absurd hrest (encodeReposPath_cons_ne_nil c r)
          subst ht0
          exact decodeReposPath_single a ha1
        | cons b r =>
          rw [decodeReposPath_other a b r ha1, ← hrest, ih ht]

/-- Claim C3 counterexample: encodeReposPath is not injective on all
strings — the distinct paths "_" and "//" share the escaped name "__". -/
theorem encodeReposPath_not_injective :
    encodeReposPathStr "_" = encodeReposPathStr "//" ∧ ("_" : String) ≠ "//" := by
  exact ⟨rfl, by decide⟩

/-- Claim C3 (amended): on paths in which no slash is adjacent to another
slash or to an underscore — which includes every host/org/name repository
identifier — the escaping is injective; and the escaping maps "a/b" to
"a_b" and "a_b" to "a__b". -/
theorem encodeReposPath_injective_on_ok_paths :
    (∀ p1 p2 : String, okReposPath p1.data = true → okReposPath p2.data = true →
        encodeReposPathStr p1 = encodeReposPathStr p2 → p1 = p2)
    ∧ encodeReposPathStr "a/b" = "a_b" ∧ encodeReposPathStr "a_b" = "a__b" := by
  refine ⟨?_, rfl, rfl⟩
  intro p1 p2 h1 h2 he
  have hd : encodeReposPath p1.data = encodeReposPath p2.data := congrArg String.data he
  have hdec := congrArg decodeReposPath hd
  rw [decodeReposPath_encodeReposPath p1.data h1,
    decodeReposPath_encodeReposPath p2.data h2] at hdec
  exact congrArg String.mk hdec

/-- Claim C3 witness. -/
theorem encodeReposPath_injective_on_ok_paths_witness :
    ("github.com/tyru/caw.vim" : String) = "github.com/tyru/caw.vim" :=
  encodeReposPath_injective_on_ok_paths.1 "github.com/tyru/caw.vim" "github.com/tyru/caw.vim"
    (by decide) (by decide) rfl

end Volt
